import Mathlib

/-!
A shallow embedding, in Lean 4, of the parts of the TPOT steady-state
estimator repository that the specification's claims are about:

* `src/tpot/builtin_modules/passthrough.py` — the `Passthrough` and
  `SkipTransformer` transformers;
* `src/tpot/tpot_estimator/steady_state_estimator.py` — the
  `TPOTEstimatorSteadyState` constructor, the final-pipeline selection at
  the end of `fit`, the warm-start guard, and the `pareto_front` property.

Machine floats of the source are modelled as rationals (`ℚ`); pandas
tables as lists of records.  Components of the repository that are not
under `src/` (the `SteadyStateEvolver`, `tpot.utils.get_pareto_frontier`,
the early-stop monitor and the budget controller) are modelled from the
specification; each such definition says so in its doc comment.
-/

namespace TPOTSpec

/-- A cell of an objective column in the evaluated-individuals table:
either a numeric score or one of the failure markers recorded by the
evaluation machinery (the strings "TIMEOUT" and "INVALID" in the source). -/
inductive ScoreVal where
  | val (q : ℚ)
  | timeoutMark
  | invalidMark
  deriving DecidableEq

/-- Whether a cell is one of the failure markers "TIMEOUT" or "INVALID"
(the membership test `isin(["TIMEOUT","INVALID"])` of the source). -/
def ScoreVal.isFailure : ScoreVal → Bool
  | .val _ => false
  | .timeoutMark => true
  | .invalidMark => true

/-- Numeric value of a cell (`astype(float)` in the source); only applied
to rows already known to contain no failure marker. -/
def ScoreVal.toRat : ScoreVal → ℚ
  | .val q => q
  | .timeoutMark => 0
  | .invalidMark => 0

/-- A two-dimensional array (numpy array or dataframe block), modelled as a
list of rows of rationals; `shape[0]` is the length of the outer list. -/
abbrev NPArray := List (List ℚ)

/-- The `Passthrough` transformer of `src/tpot/builtin_modules/passthrough.py`:
a transformer that does nothing.  It is stateless, so it is modelled as a
fieldless structure. -/
structure Passthrough

/-- `Passthrough.fit`: nothing to fit, just returns self. -/
def Passthrough.fit (self : Passthrough) (_X : Option NPArray := none)
    (_y : Option (List ℚ) := none) : Passthrough :=
  self

/-- `Passthrough.transform`: returns the input array as is. -/
def Passthrough.transform (_self : Passthrough) (X : NPArray) : NPArray :=
  X

/-- The `SkipTransformer` of `src/tpot/builtin_modules/passthrough.py`:
a transformer that returns an empty array.  Stateless. -/
structure SkipTransformer

/-- `SkipTransformer.fit`: nothing to fit, just returns self. -/
def SkipTransformer.fit (self : SkipTransformer) (_X : Option NPArray := none)
    (_y : Option (List ℚ) := none) : SkipTransformer :=
  self

/-- `SkipTransformer.transform`: `np.array([]).reshape(X.shape[0], 0)`,
an array with as many rows as `X` and zero columns. -/
def SkipTransformer.transform (_self : SkipTransformer) (X : NPArray) : NPArray :=
  List.replicate X.length []

/-- The `scorers_early_stop_tol` / `other_objectives_early_stop_tol`
constructor arguments: either a single scalar tolerance (possibly `None`)
or a list of per-objective tolerances with `None` entries allowed. -/
inductive TolParam where
  | scalar (t : Option ℚ)
  | listOf (ts : List (Option ℚ))
  deriving DecidableEq

/-- The broadcast performed in `TPOTEstimatorSteadyState.__init__`
(lines 542-550): a non-list tolerance is replicated once per objective,
a list is kept as given. -/
def resolveTol : TolParam → ℕ → List (Option ℚ)
  | .scalar t, n => List.replicate n t
  | .listOf ts, _ => ts

/-- The constructor arguments of `TPOTEstimatorSteadyState.__init__` that
the configuration-validation claim is about.  The scorers and the other
objective functions are opaque callables; only their count matters to the
constructor, so they are modelled by their counts. -/
structure TPOTParams where
  numScorers : ℕ
  scorersWeights : List ℚ
  numOtherObjectiveFunctions : ℕ
  otherObjectiveFunctionsWeights : List ℚ
  biggerIsBetter : Bool
  initialPopulationSize : Option ℕ
  populationSize : ℕ
  earlyStop : Option ℕ
  earlyStopMins : Option ℚ
  scorersEarlyStopTol : TolParam
  otherObjectivesEarlyStopTol : TolParam
  crossoverProbability : ℚ
  mutateProbability : ℚ
  mutateThenCrossoverProbability : ℚ
  crossoverThenMutateProbability : ℚ
  warmStart : Bool
  deriving DecidableEq

/-- The estimator object produced by `TPOTEstimatorSteadyState.__init__`:
the stored parameters together with the derived fields the constructor
computes (`objective_function_weights`, `early_stop_tol`,
`_initial_population_size`). -/
structure TPOTEstimatorState where
  scorersWeights : List ℚ
  otherObjectiveFunctionsWeights : List ℚ
  biggerIsBetter : Bool
  populationSize : ℕ
  initialPopulationSize : Option ℕ
  initialPopulationSizeResolved : ℕ
  earlyStop : Option ℕ
  earlyStopMins : Option ℚ
  crossoverProbability : ℚ
  mutateProbability : ℚ
  mutateThenCrossoverProbability : ℚ
  crossoverThenMutateProbability : ℚ
  objectiveFunctionWeights : List ℚ
  earlyStopTol : List (Option ℚ)
  warmStart : Bool
  deriving DecidableEq

namespace TPOTEstimatorSteadyState

/-- `TPOTEstimatorSteadyState.__init__` (steady_state_estimator.py, lines
443-559).  The Python body only copies the arguments onto `self` and
computes derived fields; it contains no `raise` statement and no check on
the variation probabilities or on the weight counts, so the embedding
returns `Except.ok` on every input.  `Except` keeps the constructor's
Python signature of a call that could in principle raise. -/
def init (p : TPOTParams) : Except String TPOTEstimatorState :=
  .ok
    { scorersWeights := p.scorersWeights
      otherObjectiveFunctionsWeights := p.otherObjectiveFunctionsWeights
      biggerIsBetter := p.biggerIsBetter
      populationSize := p.populationSize
      initialPopulationSize := p.initialPopulationSize
      initialPopulationSizeResolved :=
        match p.initialPopulationSize with
        | none => p.populationSize
        | some k => k
      earlyStop := p.earlyStop
      earlyStopMins := p.earlyStopMins
      crossoverProbability := p.crossoverProbability
      mutateProbability := p.mutateProbability
      mutateThenCrossoverProbability := p.mutateThenCrossoverProbability
      crossoverThenMutateProbability := p.crossoverThenMutateProbability
      objectiveFunctionWeights :=
        p.scorersWeights ++ p.otherObjectiveFunctionsWeights
      earlyStopTol :=
        resolveTol p.scorersEarlyStopTol p.numScorers ++
          resolveTol p.otherObjectivesEarlyStopTol p.numOtherObjectiveFunctions
      warmStart := p.warmStart }

/-- Sum of the four variation-operator probabilities. -/
def probSum (p : TPOTParams) : ℚ :=
  p.crossoverProbability + p.mutateProbability +
    p.mutateThenCrossoverProbability + p.crossoverThenMutateProbability

end TPOTEstimatorSteadyState

/-- A concrete malformed argument assignment: the variation probabilities
sum to 2 > 1 and two scorer weights are supplied for one scorer. -/
def badParams : TPOTParams :=
  { numScorers := 1
    scorersWeights := [1, 1]
    numOtherObjectiveFunctions := 0
    otherObjectiveFunctionsWeights := []
    biggerIsBetter := true
    initialPopulationSize := none
    populationSize := 50
    earlyStop := none
    earlyStopMins := none
    scorersEarlyStopTol := .scalar (some 0)
    otherObjectivesEarlyStopTol := .scalar none
    crossoverProbability := 1
    mutateProbability := 1
    mutateThenCrossoverProbability := 0
    crossoverThenMutateProbability := 0
    warmStart := false }

/-- One row of the `evaluated_individuals` table: the objective-column
cells and the `Pareto_Front` column (`none` models the NaN it holds for
rows that were not assigned a front). -/
structure PRecord where
  scores : List ScoreVal
  paretoFrontRank : Option ℕ
  deriving DecidableEq

/-- A row none of whose objective cells carries a TIMEOUT or INVALID
marker (`isin(["TIMEOUT","INVALID"]).any(axis=1).ne(True)` in `fit`). -/
def rowValid (r : PRecord) : Bool :=
  !(r.scores.any ScoreVal.isFailure)

/-- The weighted score vector of a row: each objective cell times its
`objective_function_weight` (`val_scores * self.objective_function_weights`
in `fit`). -/
def weightedScores (weights : List ℚ) (r : PRecord) : List ℚ :=
  List.zipWith (fun s w => s.toRat * w) r.scores weights

/-- Modelled from the spec: Pareto dominance over weighted score vectors —
`a` dominates `b` iff `a` is at least as good on every objective and
strictly better on at least one (maximize convention, direction already
folded into the weights). -/
def dominates (a b : List ℚ) : Bool :=
  (List.zip a b).all (fun p => p.2 ≤ p.1) && (List.zip a b).any (fun p => p.2 < p.1)

/-- Modelled from the spec: non-dominated sorting by iterated peeling —
the rows not dominated by any other row get the current rank, the rest are
ranked recursively with the next rank.  Rows are carried as
(original index, weighted scores); the fuel argument bounds the recursion
(each peeling round removes at least one row). -/
def nondominatedAssign : ℕ → List (ℕ × List ℚ) → ℕ → List (ℕ × ℕ)
  | 0, _, _ => []
  | _ + 1, [], _ => []
  | fuel + 1, row :: rows, rank =>
    let front := (row :: rows).filter
      (fun a => !((row :: rows).any (fun b => dominates b.2 a.2)))
    let rest := (row :: rows).filter
      (fun a => (row :: rows).any (fun b => dominates b.2 a.2))
    front.map (fun a => (a.1, rank)) ++ nondominatedAssign fuel rest (rank + 1)

/-- Modelled from the spec: `tpot.utils.get_pareto_frontier` is not under
`src/`.  The spec says "rank 0 = non-dominated set", and the
`Pareto_Front` column documentation in `steady_state_estimator.py` (lines
432-435) says "0 means that its scores is not strictly dominated by any
other individual".  Accordingly: valid rows are partitioned by
non-dominated sorting on their weighted scores and the 0-based rank is
written into the `Pareto_Front` column; failed rows keep NaN (`none`). -/
def get_pareto_frontier (weights : List ℚ) (table : List PRecord) :
    List PRecord :=
  let indexed := (List.range table.length).zip table
  let valids := indexed.filter (fun p => rowValid p.2)
  let ranks := nondominatedAssign valids.length
    (valids.map (fun p => (p.1, weightedScores weights p.2))) 0
  indexed.map fun p =>
    { p.2 with paretoFrontRank := (ranks.find? (fun q => q.1 == p.1)).map (·.2) }

/-- The `pareto_front` property of `TPOTEstimatorSteadyState`
(steady_state_estimator.py, lines 1039-1048): `None` when
`evaluated_individuals` is `None`, otherwise the rows whose `Pareto_Front`
column equals 1.  (The source's branch for a table lacking the
`Pareto_Front` column does not arise in this model: after `fit` the column
is always present, computed at line 794.) -/
def pareto_front (evaluated : Option (List PRecord)) : Option (List PRecord) :=
  match evaluated with
  | none => none
  | some t => some (t.filter (fun r => r.paretoFrontRank == some 1))

/-- Whether a constructor call returned an estimator (no exception). -/
def initReturned : Except String TPOTEstimatorState → Bool
  | .ok _ => true
  | .error _ => false

/-- Lexicographic (column-by-column) weak order on weighted score rows:
how pandas `sort_values` over the list of objective columns compares two
rows — the first column decides, ties fall through to the next column. -/
def lexLE : List ℚ → List ℚ → Bool
  | [], _ => true
  | _ :: _, [] => false
  | a :: as, b :: bs => decide (a < b) || (decide (a = b) && lexLE as bs)

/-- The row order of the candidate ranking in `fit` (lines 902-905):
`a` precedes `b` when the weighted scores of `a` are lexicographically at
least those of `b` (descending, `bigger_is_better=True`) or at most those
of `b` (ascending, `bigger_is_better=False`). -/
def rowOrder (weights : List ℚ) (big : Bool) (a b : PRecord) : Prop :=
  (if big then lexLE (weightedScores weights b) (weightedScores weights a)
    else lexLE (weightedScores weights a) (weightedScores weights b)) = true

instance (weights : List ℚ) (big : Bool) : DecidableRel (rowOrder weights big) :=
  fun a b => by unfold rowOrder; exact Bool.decEq _ _

/-- The candidate ranking of `fit` (lines 899-905): drop every row with a
TIMEOUT/INVALID marker in an objective column, then sort the rest by the
weighted objective columns, descending when `bigger_is_better` and
ascending otherwise (`best_indices` in the source). -/
def bestCandidates (weights : List ℚ) (big : Bool) (t : List PRecord) :
    List PRecord :=
  List.insertionSort (rowOrder weights big) (t.filter rowValid)

/-- The final-pipeline fallback search of `fit` (lines 907-932): walk the
ranked candidates in order and return the first one whose refit succeeds
(`fitOk r = true` models `fitted_pipeline_.fit` not raising); a candidate
whose fit raises is skipped and the next is tried.  The model returns
`none` when every candidate's fit raises; the claim only concerns the
successful case. -/
def selectFinalPipeline (weights : List ℚ) (big : Bool)
    (fitOk : PRecord → Bool) (t : List PRecord) : Option PRecord :=
  (bestCandidates weights big t).find? fitOk

/-- Modelled from the spec: per-objective state of the Early-Stop Monitor
(the `SteadyStateEvolver` is not under `src/`): the objective's tolerance
(`none` models a `None` tolerance, which disables the objective for early
stopping), the best direction-adjusted score seen, and the
evaluations/minutes elapsed since the last improvement beyond tolerance
(the `early_stop` counter and the `early_stop_mins` clock). -/
structure ESObj where
  tol : Option ℚ
  best : Option ℚ
  sinceCount : ℕ
  sinceMins : ℚ
  deriving DecidableEq

/-- The fallback element used with positional list access. -/
def esDefault : ESObj := ⟨none, none, 0, 0⟩

/-- Modelled from the spec: a new direction-adjusted score improves an
objective when it beats the best seen by more than the tolerance; before
any record the first score always improves. -/
def esImproves (o : ESObj) (x : ℚ) : Bool :=
  match o.best with
  | none => true
  | some b => decide (b + o.tol.getD 0 < x)

/-- Modelled from the spec: one objective's update on a newly evaluated
record: on improvement reset both counters to zero and update the best
seen; otherwise increment the evaluation counter and add the elapsed
minutes `dt`. -/
def esStepObj (o : ESObj) (x : ℚ) (dt : ℚ) : ESObj :=
  if esImproves o x then ⟨o.tol, some x, 0, 0⟩
  else ⟨o.tol, o.best, o.sinceCount + 1, o.sinceMins + dt⟩

/-- Modelled from the spec: the monitor's update on a new record —
each objective is updated independently from its own column of the score
vector. -/
def esStep (st : List ESObj) (v : List ℚ) (dt : ℚ) : List ESObj :=
  List.zipWith (fun o x => esStepObj o x dt) st v

/-- Modelled from the spec: an objective is stalled when its tolerance is
set (a `None` tolerance is permanently not stalled) and its
since-improvement counter has exceeded the configured patience — the
evaluation count for `early_stop`, the elapsed minutes for
`early_stop_mins`.  An unset patience never stalls. -/
def esStalled (earlyStop : Option ℕ) (earlyStopMins : Option ℚ) (o : ESObj) :
    Bool :=
  o.tol.isSome &&
    ((match earlyStop with
      | none => false
      | some k => decide (k ≤ o.sinceCount)) ||
      (match earlyStopMins with
      | none => false
      | some m => decide (m ≤ o.sinceMins)))

/-- Modelled from the spec: global early stop fires only when every
objective is stalled (AND semantics). -/
def esFires (earlyStop : Option ℕ) (earlyStopMins : Option ℚ)
    (st : List ESObj) : Bool :=
  st.all (esStalled earlyStop earlyStopMins)

/-- Modelled from the spec: the staircase applied by the Budget/Threshold
Controller — `stepwise_steps` discrete plateaus over the unit interval. -/
def staircase (steps : ℕ) (q : ℚ) : ℚ :=
  (⌊q * steps⌋ : ℚ) / steps

/-- Modelled from the spec: the interpolation fraction for the n-th
submitted individual — the progress `n / individuals_until_end_budget` is
clamped to 1, reshaped by the `budget_scaling` shape function `g` (the
spec's exponent; kept abstract as any monotone map of the unit interval
fixing its endpoints), and quantized by the staircase. -/
def interpFrac (g : ℚ → ℚ) (steps N n : ℕ) : ℚ :=
  staircase steps (g (min ((n : ℚ) / N) 1))

/-- Modelled from the spec: the active budget for the n-th submitted
individual, interpolated as `start + (end - start) * f(n / N)` (the
Budget/Threshold Controller is not under `src/`). -/
def activeBudget (budgetStart budgetEnd : ℚ) (g : ℚ → ℚ) (steps N n : ℕ) :
    ℚ :=
  budgetStart + (budgetEnd - budgetStart) * interpFrac g steps N n

/-- Modelled from the spec: of the `SteadyStateEvolver` (not under `src/`)
only the population store matters to the warm-start claim — the table of
everything evaluated so far, which `optimize` extends and never shrinks. -/
structure Evolver (α : Type) where
  store : List α
  deriving DecidableEq

/-- A freshly constructed evolver instance: empty population store. -/
def freshEvolver {α : Type} : Evolver α := ⟨[]⟩

/-- Modelled from the spec: `optimize` appends the newly evaluated rows to
the evolver's population store (warm start resumes from the existing store
rather than re-initializing; the store never shrinks). -/
def optimizeExtend {α : Type} (newRows : List α) (e : Evolver α) :
    Evolver α :=
  ⟨e.store ++ newRows⟩

/-- The estimator state that `fit` manipulates around the optimization
run: the `warm_start` flag, the `_evolver_instance` (None before the first
call), and the `evaluated_individuals` table (None before the first
call). -/
structure EstFitState (α : Type) where
  warmStart : Bool
  evolverInst : Option (Evolver α)
  evaluatedIndividuals : Option (List α)
  deriving DecidableEq

/-- The state transition performed by one `fit` invocation
(steady_state_estimator.py): line 586 sets `evaluated_individuals` to
None; lines 728-772 construct a fresh evolver instance unless
`warm_start` is set and an instance already exists, in which case the
existing instance is reused; line 775 runs `optimize` (which extends the
instance's population store); `make_evaluated_individuals` (lines
1026-1037) then rebuilds the table from the instance's store because the
table was reset to None. -/
def fitStateStep {α : Type} (s : EstFitState α) (newRows : List α) :
    EstFitState α :=
  let cleared : Option (List α) := none
  let e0 : Evolver α :=
    match s.warmStart, s.evolverInst with
    | true, some e => e
    | _, _ => freshEvolver
  let e1 := optimizeExtend newRows e0
  { warmStart := s.warmStart, evolverInst := some e1,
    evaluatedIndividuals := (fun _ => some e1.store) cleared }

end TPOTSpec

namespace TPOTSpec

/-- C9: Passthrough is an identity transformer: `transform X` returns `X`
itself, `fit` returns `self` with no state change, and fit-then-transform
is the identity on `X`. -/
theorem c9_passthrough_identity (p : Passthrough) (X : NPArray)
    (y : Option (List ℚ)) :
    p.transform X = X ∧ p.fit (some X) y = p ∧
      (p.fit (some X) y).transform X = X :=
  ⟨rfl, rfl, rfl⟩

/-- C10: SkipTransformer.transform returns an empty feature block of shape
`(X.shape[0], 0)` — the row count is preserved and every row is empty —
and `fit` returns `self` with no state change. -/
theorem c10_skiptransformer_empty (s : SkipTransformer) (X : NPArray)
    (y : Option (List ℚ)) :
    (s.transform X).length = X.length ∧
      (∀ row ∈ s.transform X, row = ([] : List ℚ)) ∧
      s.fit (some X) y = s := by
  refine ⟨List.length_replicate _ _, ?_, rfl⟩
  intro row hrow
  exact (List.eq_of_mem_replicate hrow)

/-- C4 counterexample: at `badParams` the four variation-operator
probabilities sum to 13/10 > 1 and two scorer weights are supplied for a
single scorer, yet `__init__` returns a usable estimator instead of
raising: the constructor performs no validation of these parameters. -/
theorem c4_counterexample_init_never_raises :
    1 < TPOTEstimatorSteadyState.probSum badParams ∧
      badParams.scorersWeights.length ≠ badParams.numScorers ∧
      initReturned (TPOTEstimatorSteadyState.init badParams) = true := by
  refine ⟨?_, by decide, rfl⟩
  norm_num [TPOTEstimatorSteadyState.probSum, badParams]

/-- C4 (amended): the constructor does not validate the variation-operator
probabilities or the objective/weight counts.  For every argument
assignment in which the probabilities sum to more than 1 (or one is
negative) or the scorer-weight count differs from the scorer count,
`__init__` still succeeds and stores the malformed values unchanged. -/
theorem c4_init_stores_malformed_params (p : TPOTParams)
    (_h : 1 < TPOTEstimatorSteadyState.probSum p ∨
      p.scorersWeights.length ≠ p.numScorers ∨
      p.crossoverProbability < 0 ∨ p.mutateProbability < 0 ∨
      p.mutateThenCrossoverProbability < 0 ∨
      p.crossoverThenMutateProbability < 0) :
    ∃ e, TPOTEstimatorSteadyState.init p = .ok e ∧
      e.crossoverProbability = p.crossoverProbability ∧
      e.mutateProbability = p.mutateProbability ∧
      e.mutateThenCrossoverProbability = p.mutateThenCrossoverProbability ∧
      e.crossoverThenMutateProbability = p.crossoverThenMutateProbability ∧
      e.objectiveFunctionWeights =
        p.scorersWeights ++ p.otherObjectiveFunctionsWeights :=
  ⟨_, rfl, rfl, rfl, rfl, rfl, rfl⟩

/-- C4 witness: the amended theorem applied at the concrete malformed
parameters `badParams`. -/
theorem c4_init_stores_malformed_params_witness :
    ∃ e, TPOTEstimatorSteadyState.init badParams = .ok e ∧
      e.crossoverProbability = badParams.crossoverProbability ∧
      e.mutateProbability = badParams.mutateProbability ∧
      e.mutateThenCrossoverProbability =
        badParams.mutateThenCrossoverProbability ∧
      e.crossoverThenMutateProbability =
        badParams.crossoverThenMutateProbability ∧
      e.objectiveFunctionWeights =
        badParams.scorersWeights ++ badParams.otherObjectiveFunctionsWeights :=
  c4_init_stores_malformed_params badParams (Or.inr (Or.inl (by decide)))

/-- C1: code bug in the `pareto_front` property.  On a two-row table with
one objective and weight 1, the spec-modelled `get_pareto_frontier`
assigns rank 0 to the non-dominated row (score 1) and rank 1 to the
dominated row (score 0) — exactly as the `Pareto_Front` column
documentation in the same source file prescribes — yet the property
filters `Pareto_Front == 1`, so it returns exactly the dominated rank-1
row and omits the rank-0 row. -/
theorem c1_pareto_front_returns_rank_one :
    get_pareto_frontier [1] [⟨[.val 1], none⟩, ⟨[.val 0], none⟩] =
      [⟨[.val 1], some 0⟩, ⟨[.val 0], some 1⟩] ∧
    pareto_front (some [⟨[.val 1], some 0⟩, ⟨[.val 0], some 1⟩]) =
      some [⟨[.val 0], some 1⟩] ∧
    (⟨[.val 1], some 0⟩ : PRecord).paretoFrontRank = some 0 ∧
    (⟨[.val 1], some 0⟩ : PRecord) ∉ [(⟨[.val 0], some 1⟩ : PRecord)] ∧
    ∀ r ∈ [(⟨[.val 0], some 1⟩ : PRecord)], r.paretoFrontRank ≠ some 0 := by
  have htab : get_pareto_frontier [1] [⟨[.val 1], none⟩, ⟨[.val 0], none⟩] =
      [⟨[.val 1], some 0⟩, ⟨[.val 0], some 1⟩] := by
    norm_num [get_pareto_frontier, nondominatedAssign, dominates,
      weightedScores, rowValid, ScoreVal.isFailure, ScoreVal.toRat,
      List.range_succ, List.filter, List.find?]
    exact ⟨1, rfl⟩
  exact ⟨htab, by decide, rfl, by decide, by decide⟩

/-- Totality of the lexicographic row comparison. -/
theorem lexLE_total : ∀ a b : List ℚ, lexLE a b = true ∨ lexLE b a = true := by
  intro a
  induction a with
  | nil => intro b; left; rfl
  | cons x xs ih =>
    intro b
    cases b with
    | nil => right; rfl
    | cons y ys =>
      simp only [lexLE, Bool.or_eq_true, Bool.and_eq_true, decide_eq_true_eq]
      rcases lt_trichotomy x y with h | h | h
      · exact Or.inl (Or.inl h)
      · subst h
        rcases ih ys with h2 | h2
        · exact Or.inl (Or.inr ⟨rfl, h2⟩)
        · exact Or.inr (Or.inr ⟨rfl, h2⟩)
      · exact Or.inr (Or.inl h)

/-- Transitivity of the lexicographic row comparison. -/
theorem lexLE_trans : ∀ a b c : List ℚ, lexLE a b = true → lexLE b c = true →
    lexLE a c = true := by
  intro a
  induction a with
  | nil => intro b c _ _; rfl
  | cons x xs ih =>
    intro b c hab hbc
    cases b with
    | nil => simp [lexLE] at hab
    | cons y ys =>
      cases c with
      | nil => simp [lexLE] at hbc
      | cons z zs =>
        simp only [lexLE, Bool.or_eq_true, Bool.and_eq_true,
          decide_eq_true_eq] at hab hbc ⊢
        rcases hab with h1 | ⟨h1, h1'⟩
        · rcases hbc with h2 | ⟨h2, h2'⟩
          · exact Or.inl (h1.trans h2)
          · exact Or.inl (by rw [← h2]; exact h1)
        · rcases hbc with h2 | ⟨h2, h2'⟩
          · exact Or.inl (by rw [h1]; exact h2)
          · exact Or.inr ⟨h1.trans h2, ih ys zs h1' h2'⟩

/-- The candidate-ranking row order is total. -/
theorem rowOrder_total (weights : List ℚ) (big : Bool) :
    ∀ a b : PRecord, rowOrder weights big a b ∨ rowOrder weights big b a := by
  intro a b
  unfold rowOrder
  cases big
  · simpa using lexLE_total (weightedScores weights a) (weightedScores weights b)
  · simpa using lexLE_total (weightedScores weights b) (weightedScores weights a)

/-- The candidate-ranking row order is transitive. -/
theorem rowOrder_trans (weights : List ℚ) (big : Bool) :
    ∀ a b c : PRecord, rowOrder weights big a b → rowOrder weights big b c →
      rowOrder weights big a c := by
  intro a b c hab hbc
  unfold rowOrder at hab hbc ⊢
  cases big
  · simp only [if_neg Bool.false_ne_true] at hab hbc ⊢
    exact lexLE_trans _ _ _ hab hbc
  · simp only [if_pos rfl] at hab hbc ⊢
    exact lexLE_trans _ _ _ hbc hab

/-- C2: no record carrying a TIMEOUT or INVALID marker in any objective
column appears in the candidate ranking of the final-pipeline selection,
and hence no such record is ever the chosen pipeline: `fit` filters failed
rows out before ranking. -/
theorem c2_failures_never_selected (weights : List ℚ) (big : Bool)
    (t : List PRecord) (_hvalid : ∃ r ∈ t, rowValid r = true) :
    (∀ r ∈ bestCandidates weights big t, ∀ s ∈ r.scores,
        s.isFailure = false) ∧
      ∀ fitOk c, selectFinalPipeline weights big fitOk t = some c →
        ∀ s ∈ c.scores, s.isFailure = false := by
  have hmem : ∀ r ∈ bestCandidates weights big t, rowValid r = true := by
    intro r hr
    have hr2 := (List.perm_insertionSort (rowOrder weights big)
      (t.filter rowValid)).mem_iff.mp hr
    exact (List.mem_filter.mp hr2).2
  have hscores : ∀ r : PRecord, rowValid r = true →
      ∀ s ∈ r.scores, s.isFailure = false := by
    intro r hrv s hs
    unfold rowValid at hrv
    rw [Bool.not_eq_eq_eq_not, Bool.not_true, List.any_eq_false] at hrv
    simpa using hrv s hs
  refine ⟨fun r hr => hscores r (hmem r hr), fun fitOk c hc => ?_⟩
  exact hscores c (hmem c (List.mem_of_find?_eq_some hc))

/-- C2 witness: the theorem applied to a concrete two-row table with one
TIMEOUT row and one valid row. -/
theorem c2_failures_never_selected_witness :
    (∃ r ∈ [(⟨[.timeoutMark], none⟩ : PRecord), ⟨[.val 2], none⟩],
        rowValid r = true) ∧
      (∀ r ∈ bestCandidates [1] true
            [(⟨[.timeoutMark], none⟩ : PRecord), ⟨[.val 2], none⟩],
          ∀ s ∈ r.scores, s.isFailure = false) ∧
        ∀ fitOk c, selectFinalPipeline [1] true fitOk
            [(⟨[.timeoutMark], none⟩ : PRecord), ⟨[.val 2], none⟩] = some c →
          ∀ s ∈ c.scores, s.isFailure = false :=
  ⟨by decide, c2_failures_never_selected [1] true
    [⟨[.timeoutMark], none⟩, ⟨[.val 2], none⟩] (by decide)⟩

/-- C3: the final-pipeline refit is an ordered fallback search: the
candidates are the valid rows sorted by the weighted objective vector
(descending when `bigger_is_better`, ascending otherwise, as the
`rowOrder` direction states), and the selected pipeline is the first
candidate in that order whose fit succeeds — every earlier candidate's fit
raised and was skipped. -/
theorem c3_ordered_fallback_refit (weights : List ℚ) (big : Bool)
    (fitOk : PRecord → Bool) (t : List PRecord) :
    (bestCandidates weights big t).Perm (t.filter rowValid) ∧
      (bestCandidates weights big t).Sorted (rowOrder weights big) ∧
      ∀ c, selectFinalPipeline weights big fitOk t = some c →
        fitOk c = true ∧
          ∃ pre post, bestCandidates weights big t = pre ++ c :: post ∧
            ∀ x ∈ pre, fitOk x = false := by
  refine ⟨List.perm_insertionSort _ _, ?_, ?_⟩
  · haveI : IsTotal PRecord (rowOrder weights big) := ⟨rowOrder_total weights big⟩
    haveI : IsTrans PRecord (rowOrder weights big) :=
      ⟨rowOrder_trans weights big⟩
    exact List.sorted_insertionSort _ _
  · intro c hc
    rcases List.find?_eq_some.mp hc with ⟨hok, pre, post, heq, hpre⟩
    exact ⟨hok, pre, post, heq, fun x hx => by simpa using hpre x hx⟩

/-- C3 witness: the theorem applied to a concrete table whose single valid
row is selected at once. -/
theorem c3_ordered_fallback_refit_witness :
    ((bestCandidates [1] true
        [(⟨[.invalidMark], none⟩ : PRecord), ⟨[.val 2], none⟩]).Perm
      ([(⟨[.invalidMark], none⟩ : PRecord), ⟨[.val 2], none⟩].filter rowValid)) ∧
      ((bestCandidates [1] true
          [(⟨[.invalidMark], none⟩ : PRecord), ⟨[.val 2], none⟩]).Sorted
        (rowOrder [1] true)) ∧
      ((fun _ => true) (⟨[.val 2], none⟩ : PRecord) = true ∧
        ∃ pre post, bestCandidates [1] true
            [(⟨[.invalidMark], none⟩ : PRecord), ⟨[.val 2], none⟩] =
            pre ++ (⟨[.val 2], none⟩ : PRecord) :: post ∧
          ∀ x ∈ pre, (fun _ => true) x = false) := by
  obtain ⟨h1, h2, h3⟩ := c3_ordered_fallback_refit [1] true (fun _ => true)
    [⟨[.invalidMark], none⟩, ⟨[.val 2], none⟩]
  exact ⟨h1, h2, h3 ⟨[.val 2], none⟩ (by decide)⟩

/-- C5: early stopping fires iff every objective is stalled — its
since-improvement counter has exceeded the configured `early_stop` /
`early_stop_mins` patience; an improvement beyond tolerance on one
objective resets exactly that objective's counter (the updated counter at
a position is 0 iff that position's own score improved, and depends on no
other position's score), and an objective whose tolerance is `None` is
never stalled, so its presence alone keeps the run alive. -/
theorem c5_early_stop_all_objectives (earlyStop : Option ℕ)
    (earlyStopMins : Option ℚ) (st : List ESObj) (v w : List ℚ) (dt : ℚ)
    (j : ℕ) (hv : st.length = v.length) (hw : st.length = w.length)
    (hj : j < st.length) :
    (esFires earlyStop earlyStopMins st = true ↔
      ∀ k, k < st.length →
        esStalled earlyStop earlyStopMins (st.getD k esDefault) = true) ∧
    (((esStep st v dt).map ESObj.sinceCount).getD j 0 =
      if esImproves (st.getD j esDefault) (v.getD j 0) then 0
      else (st.getD j esDefault).sinceCount + 1) ∧
    (v.getD j 0 = w.getD j 0 →
      ((esStep st v dt).map ESObj.sinceCount).getD j 0 =
        ((esStep st w dt).map ESObj.sinceCount).getD j 0) ∧
    ((st.getD j esDefault).tol = none →
      esFires earlyStop earlyStopMins st = false) := by
  have hstepCount : ∀ (u : List ℚ), st.length = u.length →
      ((esStep st u dt).map ESObj.sinceCount).getD j 0 =
        if esImproves (st.getD j esDefault) (u.getD j 0) then 0
        else (st.getD j esDefault).sinceCount + 1 := by
    intro u hu
    have hb : j < ((esStep st u dt).map ESObj.sinceCount).length := by
      simp only [List.length_map, esStep, List.length_zipWith]
      omega
    rw [List.getD_eq_getElem _ _ hb, List.getElem_map]
    have hbz : j < (esStep st u dt).length := by
      simpa using hb
    rw [List.getD_eq_getElem st esDefault hj,
      List.getD_eq_getElem u 0 (by omega)]
    simp only [esStep, List.getElem_zipWith]
    by_cases himp : esImproves st[j] u[j] = true
    · simp [esStepObj, himp]
    · simp [esStepObj, himp]
  refine ⟨?_, hstepCount v hv, ?_, ?_⟩
  · constructor
    · intro h k hk
      rw [List.getD_eq_getElem st esDefault hk]
      exact List.all_eq_true.mp h _ (List.getElem_mem hk)
    · intro h
      apply List.all_eq_true.mpr
      intro x hx
      rcases List.getElem_of_mem hx with ⟨k, hk, hkx⟩
      have := h k hk
      rwa [List.getD_eq_getElem st esDefault hk, hkx] at this
  · intro hvw
    rw [hstepCount v hv, hstepCount w hw, hvw]
  · intro htol
    have hmem : st.getD j esDefault ∈ st := by
      rw [List.getD_eq_getElem st esDefault hj]
      exact List.getElem_mem hj
    apply Bool.eq_false_iff.mpr
    intro hall
    have h1 := List.all_eq_true.mp hall _ hmem
    simp only [esStalled, Bool.and_eq_true] at h1
    rw [htol] at h1
    simp at h1

/-- C5 witness: the theorem applied to a concrete two-objective monitor
state — first objective with tolerance 0 and a counter at the patience,
second objective with tolerance `None`. -/
theorem c5_early_stop_all_objectives_witness :
    (esFires (some 3) none [⟨some 0, some 1, 3, 0⟩, esDefault] = true ↔
      ∀ k, k < 2 →
        esStalled (some 3) none
          (([⟨some 0, some 1, 3, 0⟩, esDefault] : List ESObj).getD k esDefault) =
          true) ∧
    (((esStep [⟨some 0, some 1, 3, 0⟩, esDefault] [2, 5] 1).map
        ESObj.sinceCount).getD 0 0 =
      if esImproves
          (([⟨some 0, some 1, 3, 0⟩, esDefault] : List ESObj).getD 0 esDefault)
          (([2, 5] : List ℚ).getD 0 0) then 0
      else (([⟨some 0, some 1, 3, 0⟩, esDefault] : List ESObj).getD 0
          esDefault).sinceCount + 1) ∧
    (([2, 5] : List ℚ).getD 0 0 = ([2, 7] : List ℚ).getD 0 0 →
      ((esStep [⟨some 0, some 1, 3, 0⟩, esDefault] [2, 5] 1).map
          ESObj.sinceCount).getD 0 0 =
        ((esStep [⟨some 0, some 1, 3, 0⟩, esDefault] [2, 7] 1).map
            ESObj.sinceCount).getD 0 0) ∧
    ((([⟨some 0, some 1, 3, 0⟩, esDefault] : List ESObj).getD 0
        esDefault).tol = none →
      esFires (some 3) none [⟨some 0, some 1, 3, 0⟩, esDefault] = false) :=
  c5_early_stop_all_objectives (some 3) none
    [⟨some 0, some 1, 3, 0⟩, esDefault] [2, 5] [2, 7] 1 0
    (by decide) (by decide) (by decide)

/-- C6: the active budget, as a function of the number of submitted
individuals, moves monotonically from `budget_range[0]` toward
`budget_range[1]` (non-decreasing when start < end, non-increasing when
start > end), always lies within the closed interval spanned by the two
endpoints, and is frozen at the end value for every
`n ≥ individuals_until_end_budget`.  The `budget_scaling` shape `g` is any
monotone map of the unit interval fixing its endpoints. -/
theorem c6_budget_interpolation (budgetStart budgetEnd : ℚ) (g : ℚ → ℚ)
    (steps N : ℕ) (hsteps : 0 < steps) (hN : 0 < N)
    (hg0 : g 0 = 0) (hg1 : g 1 = 1)
    (hgm : ∀ a b : ℚ, 0 ≤ a → a ≤ b → b ≤ 1 → g a ≤ g b) :
    (budgetStart ≤ budgetEnd → ∀ m n : ℕ, m ≤ n →
      activeBudget budgetStart budgetEnd g steps N m ≤
        activeBudget budgetStart budgetEnd g steps N n) ∧
    (budgetEnd ≤ budgetStart → ∀ m n : ℕ, m ≤ n →
      activeBudget budgetStart budgetEnd g steps N n ≤
        activeBudget budgetStart budgetEnd g steps N m) ∧
    (∀ n : ℕ, min budgetStart budgetEnd ≤
        activeBudget budgetStart budgetEnd g steps N n ∧
      activeBudget budgetStart budgetEnd g steps N n ≤
        max budgetStart budgetEnd) ∧
    (∀ n : ℕ, N ≤ n →
      activeBudget budgetStart budgetEnd g steps N n = budgetEnd) := by
  have hsQ : (0 : ℚ) < steps := by exact_mod_cast hsteps
  have hNQ : (0 : ℚ) < N := by exact_mod_cast hN
  have ht0 : ∀ n : ℕ, 0 ≤ min ((n : ℚ) / N) 1 :=
    fun n => le_min (div_nonneg (by positivity) hNQ.le) zero_le_one
  have ht1 : ∀ n : ℕ, min ((n : ℚ) / N) 1 ≤ 1 := fun n => min_le_right _ _
  have htmono : ∀ m n : ℕ, m ≤ n →
      min ((m : ℚ) / N) 1 ≤ min ((n : ℚ) / N) 1 := by
    intro m n hmn
    apply min_le_min_right
    apply div_le_div_of_nonneg_right ?_ hNQ.le
    exact_mod_cast hmn
  have hq0 : ∀ n : ℕ, 0 ≤ g (min ((n : ℚ) / N) 1) := by
    intro n
    have := hgm 0 (min ((n : ℚ) / N) 1) le_rfl (ht0 n) (ht1 n)
    rwa [hg0] at this
  have hq1 : ∀ n : ℕ, g (min ((n : ℚ) / N) 1) ≤ 1 := by
    intro n
    have := hgm (min ((n : ℚ) / N) 1) 1 (ht0 n) (ht1 n) le_rfl
    rwa [hg1] at this
  have hfrac0 : ∀ n : ℕ, 0 ≤ interpFrac g steps N n := by
    intro n
    unfold interpFrac staircase
    apply div_nonneg ?_ hsQ.le
    have : (0 : ℤ) ≤ ⌊g (min ((n : ℚ) / N) 1) * steps⌋ :=
      Int.floor_nonneg.mpr (mul_nonneg (hq0 n) hsQ.le)
    exact_mod_cast this
  have hfrac1 : ∀ n : ℕ, interpFrac g steps N n ≤ 1 := by
    intro n
    unfold interpFrac staircase
    rw [div_le_one hsQ]
    calc (⌊g (min ((n : ℚ) / N) 1) * steps⌋ : ℚ)
        ≤ g (min ((n : ℚ) / N) 1) * steps := Int.floor_le _
      _ ≤ 1 * steps := mul_le_mul_of_nonneg_right (hq1 n) hsQ.le
      _ = steps := one_mul _
  have hfracmono : ∀ m n : ℕ, m ≤ n →
      interpFrac g steps N m ≤ interpFrac g steps N n := by
    intro m n hmn
    unfold interpFrac staircase
    have hgle : g (min ((m : ℚ) / N) 1) ≤ g (min ((n : ℚ) / N) 1) :=
      hgm _ _ (ht0 m) (htmono m n hmn) (ht1 n)
    have hfl : ⌊g (min ((m : ℚ) / N) 1) * steps⌋ ≤
        ⌊g (min ((n : ℚ) / N) 1) * steps⌋ :=
      Int.floor_mono (mul_le_mul_of_nonneg_right hgle hsQ.le)
    apply div_le_div_of_nonneg_right ?_ hsQ.le
    exact_mod_cast hfl
  have hfrozen : ∀ n : ℕ, N ≤ n → interpFrac g steps N n = 1 := by
    intro n hn
    have hdiv : (1 : ℚ) ≤ (n : ℚ) / N := by
      rw [le_div_iff₀ hNQ, one_mul]
      exact_mod_cast hn
    unfold interpFrac staircase
    rw [min_eq_right hdiv, hg1, one_mul]
    rw [Int.floor_natCast]
    exact div_self hsQ.ne'
  refine ⟨?_, ?_, ?_, ?_⟩
  · intro hse m n hmn
    unfold activeBudget
    have hd : 0 ≤ budgetEnd - budgetStart := by linarith
    have := mul_le_mul_of_nonneg_left (hfracmono m n hmn) hd
    linarith
  · intro hse m n hmn
    unfold activeBudget
    have hd : budgetEnd - budgetStart ≤ 0 := by linarith
    have := mul_le_mul_of_nonpos_left (hfracmono m n hmn) hd
    linarith
  · intro n
    unfold activeBudget
    rcases le_total budgetStart budgetEnd with hse | hse
    · rw [min_eq_left hse, max_eq_right hse]
      constructor
      · nlinarith [hfrac0 n, hfrac1 n]
      · nlinarith [hfrac0 n, hfrac1 n]
    · rw [min_eq_right hse, max_eq_left hse]
      constructor
      · nlinarith [hfrac0 n, hfrac1 n]
      · nlinarith [hfrac0 n, hfrac1 n]
  · intro n hn
    unfold activeBudget
    rw [hfrozen n hn]
    ring

/-- C6 witness: the theorem applied with start budget 0, end budget 10,
the identity shape, 5 staircase steps and 4 individuals until the end
budget. -/
theorem c6_budget_interpolation_witness :
    ((0 : ℚ) ≤ 10 → ∀ m n : ℕ, m ≤ n →
      activeBudget 0 10 (fun q => q) 5 4 m ≤
        activeBudget 0 10 (fun q => q) 5 4 n) ∧
    ((10 : ℚ) ≤ 0 → ∀ m n : ℕ, m ≤ n →
      activeBudget 0 10 (fun q => q) 5 4 n ≤
        activeBudget 0 10 (fun q => q) 5 4 m) ∧
    (∀ n : ℕ, min (0 : ℚ) 10 ≤ activeBudget 0 10 (fun q => q) 5 4 n ∧
      activeBudget 0 10 (fun q => q) 5 4 n ≤ max (0 : ℚ) 10) ∧
    (∀ n : ℕ, 4 ≤ n → activeBudget 0 10 (fun q => q) 5 4 n = 10) :=
  c6_budget_interpolation 0 10 (fun q => q) 5 4 (by decide) (by decide)
    rfl rfl (fun _ _ _ h2 _ => h2)

/-- C7: re-invoking `fit` reuses and extends the existing evolver instance
and its population store exactly when `warm_start` is set and an instance
exists (the old store is a prefix of the new one); otherwise the run is
reset — a fresh evolver instance is constructed, the rebuilt
evaluated-individuals table holds only the new run's rows, and the outcome
is identical to starting from a cleared state. -/
theorem c7_warm_start_guard {α : Type} (s : EstFitState α) (rows : List α) :
    (∀ e : Evolver α, s.warmStart = true → s.evolverInst = some e →
      (fitStateStep s rows).evolverInst = some ⟨e.store ++ rows⟩ ∧
        e.store <+: (optimizeExtend rows e).store ∧
        (fitStateStep s rows).evaluatedIndividuals = some (e.store ++ rows)) ∧
    ((s.warmStart = false ∨ s.evolverInst = none) →
      (fitStateStep s rows).evolverInst = some ⟨rows⟩ ∧
        (fitStateStep s rows).evaluatedIndividuals = some rows ∧
        fitStateStep s rows = fitStateStep ⟨s.warmStart, none, none⟩ rows) := by
  rcases s with ⟨ws, inst, ev⟩
  constructor
  · intro e hws hinst
    dsimp at hws hinst
    subst hws
    subst hinst
    exact ⟨rfl, List.prefix_append _ _, rfl⟩
  · intro h
    rcases h with h | h
    · dsimp at h
      subst h
      exact ⟨rfl, rfl, rfl⟩
    · dsimp at h
      subst h
      cases ws
      · exact ⟨rfl, rfl, rfl⟩
      · exact ⟨rfl, rfl, rfl⟩

/-- C7 witness: the theorem applied to a concrete warm-start state with a
two-row store, and to the same state with `warm_start` off. -/
theorem c7_warm_start_guard_witness :
    ((fitStateStep (⟨true, some ⟨[1, 2]⟩, some [1, 2]⟩ : EstFitState ℕ)
        [3]).evolverInst = some ⟨[1, 2] ++ [3]⟩ ∧
      [1, 2] <+: (optimizeExtend [3] (⟨[1, 2]⟩ : Evolver ℕ)).store ∧
      (fitStateStep (⟨true, some ⟨[1, 2]⟩, some [1, 2]⟩ : EstFitState ℕ)
          [3]).evaluatedIndividuals = some ([1, 2] ++ [3])) ∧
    ((fitStateStep (⟨false, some ⟨[1, 2]⟩, some [1, 2]⟩ : EstFitState ℕ)
        [3]).evolverInst = some ⟨[3]⟩ ∧
      (fitStateStep (⟨false, some ⟨[1, 2]⟩, some [1, 2]⟩ : EstFitState ℕ)
          [3]).evaluatedIndividuals = some [3] ∧
      fitStateStep (⟨false, some ⟨[1, 2]⟩, some [1, 2]⟩ : EstFitState ℕ) [3] =
        fitStateStep ⟨false, none, none⟩ [3]) :=
  ⟨(c7_warm_start_guard ⟨true, some ⟨[1, 2]⟩, some [1, 2]⟩ [3]).1
      ⟨[1, 2]⟩ rfl rfl,
    (c7_warm_start_guard ⟨false, some ⟨[1, 2]⟩, some [1, 2]⟩ [3]).2
      (Or.inl rfl)⟩

end TPOTSpec
